import Mathlib

/-!
Verification of the viewcam surveillance-wall program.

The definitions below are a shallow embedding of the Python sources
`multiplecam.py`, `department_mapping.py` and `realtime_area_counts.py`:
pure helpers become Lean functions, object state becomes explicit state
passing, Python `float` time values and recognition scores are modelled
as exact rationals, and Python `round` (round-half-to-even) is modelled
as exact rational rounding.
-/

namespace Viewcam

/-- Round-half-to-even (Python `round`) of the exact rational `a / b`,
for natural `a` and positive `b`. -/
def rnd (a b : ℕ) : ℕ :=
  let q := a / b
  let r := a % b
  if 2 * r < b then q
  else if b < 2 * r then q + 1
  else if q % 2 = 0 then q else q + 1

/-- Embedding of `compute_boundaries(total_pixels, segments)` from `multiplecam.py`:
`[int(round(i * total_pixels / segments)) for i in range(segments + 1)]`,
with the division modelled as exact rational arithmetic. -/
def compute_boundaries (total_pixels segments : ℕ) : List ℕ :=
  (List.range (segments + 1)).map (fun i => rnd (i * total_pixels) segments)

/-- Sum of consecutive differences of a list of naturals. -/
def sumDiffs : List ℕ → ℕ
  | x :: y :: rest => (y - x) + sumDiffs (y :: rest)
  | _ => 0

/-- An axis-aligned pixel rectangle, origin top-left. -/
structure Rect where
  x : ℕ
  y : ℕ
  w : ℕ
  h : ℕ
deriving DecidableEq

/-- Pixel area of a rectangle. -/
def Rect.area (r : Rect) : ℕ := r.w * r.h

/-- Two rectangles do not overlap: they are separated along some axis. -/
def Rect.disjoint (r1 r2 : Rect) : Prop :=
  r1.x + r1.w ≤ r2.x ∨ r2.x + r2.w ≤ r1.x ∨ r1.y + r1.h ≤ r2.y ∨ r2.y + r2.h ≤ r1.y

instance : ∀ r1 r2 : Rect, Decidable (Rect.disjoint r1 r2) := fun r1 r2 => by
  unfold Rect.disjoint
  infer_instance

/-- Embedding of `CustomLayoutWindow._get_tile_map`: slot index to
`(x_start, y_start, x_end, y_end)` grid spans, listed in key order `0, 1, …`. -/
def get_tile_map (num_cams : ℕ) : List (ℕ × ℕ × ℕ × ℕ) :=
  if num_cams = 1 then [(0, 0, 1, 1)]
  else if num_cams = 2 ∨ num_cams = 3 ∨ num_cams = 4 then
    [(0, 0, 1, 1), (1, 0, 2, 1), (0, 1, 1, 2), (1, 1, 2, 2)]
  else
    [(0, 0, 2, 2), (2, 0, 3, 1), (2, 1, 3, 2), (2, 2, 3, 3), (0, 2, 1, 3), (1, 2, 2, 3)]

/-- Number of frames created in `CustomLayoutWindow.__init__`: one per camera,
plus black padding tiles only for 2-camera (two tiles) and 3-camera (one tile)
groups. -/
def num_frames (num_cams : ℕ) : ℕ :=
  num_cams + (if num_cams = 2 then 2 else if num_cams = 3 then 1 else 0)

/-- The value `max(t[2] for t in tile_map.values())` in `_layout_and_attach`. -/
def max_x_seg (num_cams : ℕ) : ℕ :=
  (get_tile_map num_cams).foldl (fun m t => max m t.2.2.1) 0

/-- The value `max(t[3] for t in tile_map.values())` in `_layout_and_attach`. -/
def max_y_seg (num_cams : ℕ) : ℕ :=
  (get_tile_map num_cams).foldl (fun m t => max m t.2.2.2) 0

/-- Frame rectangles assigned by `CustomLayoutWindow._layout_and_attach`
(side panel hidden, so the available width is the full surface width `sw`).
A frame whose index is not a key of the tile map gets the zero rectangle. -/
def layout_rects (sw sh num_cams : ℕ) : List Rect :=
  (List.range (num_frames num_cams)).map fun idx =>
    match (get_tile_map num_cams)[idx]? with
    | some (xs, ys, xe, ye) =>
        ⟨(compute_boundaries sw (max_x_seg num_cams)).getD xs 0,
         (compute_boundaries sh (max_y_seg num_cams)).getD ys 0,
         (compute_boundaries sw (max_x_seg num_cams)).getD xe 0 -
           (compute_boundaries sw (max_x_seg num_cams)).getD xs 0,
         (compute_boundaries sh (max_y_seg num_cams)).getD ye 0 -
           (compute_boundaries sh (max_y_seg num_cams)).getD ys 0⟩
    | none => ⟨0, 0, 0, 0⟩


/-- Embedding of `DEPARTMENT_MAPPING` from `department_mapping.py`:
entries `(department_id, name, area)`. -/
def DEPARTMENT_MAPPING : List (String × String × String) := [
  ("68c7d0345ae9e9e13020dbb8", "Kiểm soát an ninh", "KHU VỰC KSAN"),
  ("690583e4d2739e469f4efba4", "Buồng giam 01", "KHU VỰC BUỒNG GIAM"),
  ("68c7c559e6824a87950bc084", "Buồng giam 02", "KHU VỰC BUỒNG GIAM"),
  ("68c7be7b1d4a863510d396ee", "Hàng rào 01", "KHU VỰC HÀNG RÀO"),
  ("68c7c5b5b24a5bb09d737226", "Hàng rào 02", "KHU VỰC HÀNG RÀO"),
  ("68c7c0605ae9e9e13020db7c", "Cổng trại 01", "KHU VỰC CỔNG TRẠI"),
  ("68c7bf4f3387f32b37ff83ac", "Cổng trại 02", "KHU VỰC CỔNG TRẠI"),
  ("69143609a0dd9986d5defb20", "Lao động", "KHU VỰC LAO ĐỘNG"),
  ("6913075f8387ea258f4c9671", "Ra vào 01", "KHU VỰC KIỂM SOÁT RA VÀO"),
  ("691307314d6dcb1f5b061537", "Ra vào 02", "KHU VỰC KIỂM SOÁT RA VÀO")]

/-- Embedding of `get_department_info`: the `(name, area)` record for a
department id, or `none` (the empty dict) when the id is unmapped. -/
def get_department_info (department_id : String) : Option (String × String) :=
  (DEPARTMENT_MAPPING.find? (fun e => e.1 == department_id)).map (fun e => e.2)

/-- Resolved area of a department id in `AreaCountTracker.get_area_counts`:
the directory's area when present, otherwise the synthesized
`UNKNOWN_AREA (…)` placeholder built from the first 8 characters of the id. -/
def area_of (department_id : String) : String :=
  let area := match get_department_info department_id with
    | some info => info.2
    | none => ""
  if area = "" then "UNKNOWN_AREA (" ++ department_id.take 8 ++ "...)" else area

/-- A recognized-person entry from the event payload. -/
structure Person where
  subject_name : String
  face_url : String
  score : ℚ
deriving DecidableEq

/-- The three counters of a count event (`data_count`). -/
structure DataCount where
  prisoner : Int
  officer : Int
  relative : Int
deriving DecidableEq

/-- A stored per-department snapshot; also the shape of the aggregated
per-area record returned by `get_area_counts`. -/
structure DeptCounts where
  prisoner : Int
  officer : Int
  relative : Int
  list_person : List Person
deriving DecidableEq

/-- State of an `AreaCountTracker`. -/
structure TrackerState where
  dept_counts : List (String × DeptCounts)
  last_update_time : Option String
deriving DecidableEq

/-- Python dict assignment `d[k] = v`: replace the entry in place if the key
is present, otherwise append it. -/
def setEntry : List (String × DeptCounts) → String → DeptCounts → List (String × DeptCounts)
  | [], k, v => [(k, v)]
  | (k', v') :: rest, k, v =>
      if k' = k then (k, v) :: rest else (k', v') :: setEntry rest k v

/-- Embedding of `AreaCountTracker.update_counts` (multiplecam variant): store
the snapshot for the department when `data_count` is truthy, and stamp the
update time. A falsy (`none`) `data_count` stores nothing. -/
def update_counts (s : TrackerState) (department_id : String)
    (data_count : Option DataCount) (list_person : List Person)
    (now : String) : TrackerState :=
  { dept_counts :=
      match data_count with
      | some d => setEntry s.dept_counts department_id
          ⟨d.prisoner, d.officer, d.relative, list_person⟩
      | none => s.dept_counts,
    last_update_time := some now }

/-- The person filter applied in `get_area_counts`: truthy `subject_name`,
truthy `face_url` and strictly positive `score`. -/
def personFilter (p : Person) : Bool :=
  decide (p.subject_name ≠ "") && decide (p.face_url ≠ "") && decide (0 < p.score)

/-- One aggregation step of `get_area_counts`: fold a department snapshot
into the per-area accumulator at its resolved area. -/
def aggStep (acc : String → DeptCounts) (e : String × DeptCounts) : String → DeptCounts :=
  fun a =>
    if a = area_of e.1 then
      ⟨(acc (area_of e.1)).prisoner + e.2.prisoner,
       (acc (area_of e.1)).officer + e.2.officer,
       (acc (area_of e.1)).relative + e.2.relative,
       (acc (area_of e.1)).list_person ++ e.2.list_person.filter personFilter⟩
    else acc a

/-- Embedding of `AreaCountTracker.get_area_counts`: aggregate every stored
department snapshot by resolved area; reading an unseen area yields the
`defaultdict` default (all zeros, empty person list). -/
def get_area_counts (s : TrackerState) : String → DeptCounts :=
  s.dept_counts.foldl aggStep (fun _ => ⟨0, 0, 0, []⟩)

/-- State-passing embedding of the `get_area_counts` method call: the method
body assigns to no attribute of `self` (it only builds a fresh local
`defaultdict`), so the post-state is the input state. -/
def get_area_counts_method (s : TrackerState) : TrackerState × (String → DeptCounts) :=
  (s, get_area_counts s)

/-- The persons actually rendered by `_update_area_panel`: the slice
`list_person[:10]` of an area record. -/
def displayed_persons (counts : DeptCounts) : List Person :=
  counts.list_person.take 10

/-- Actions issued to a VLC media-player handle. -/
inductive PlayerAction
  | stop
  | play
deriving DecidableEq

/-- Embedding of `CustomLayoutWindow._start_playback` for one slot, as a
function of the slot's configuration and the recorded time of its last play
attempt (`last_play_attempts[idx]`): returns the new recorded time and the
player actions issued. `has_cam` is false for out-of-range indices and black
tiles and `url` is the camera URL; `has_player` tells whether `players[idx]`
is non-`None` (when it is `None`, the `set_media` call raises and the
exception is absorbed, so no action is issued although the attempt time was
already recorded). -/
def start_playback (has_cam : Bool) (url : String) (has_player : Bool)
    (last now : ℚ) : ℚ × List PlayerAction :=
  if has_cam = false then (last, [])
  else if url = "" then (last, [])
  else if now - last < 1 then (last, [])
  else (now, if has_player then [PlayerAction.stop, PlayerAction.play] else [])

/-- The recorded play-attempt times produced by a sequence of
`_start_playback` invocations at the given call times. -/
def attempt_times (has_cam : Bool) (url : String) (has_player : Bool) :
    ℚ → List ℚ → List ℚ
  | _, [] => []
  | last, t :: ts =>
      if (start_playback has_cam url has_player last t).1 = last then
        attempt_times has_cam url has_player last ts
      else t :: attempt_times has_cam url has_player
        ((start_playback has_cam url has_player last t).1) ts

/-- A VLC media-player handle: whether it is playing, and whether its `stop`
raises (the caller absorbs the exception). -/
structure PlayerH where
  playing : Bool
  stop_fails : Bool
deriving DecidableEq

/-- A socket-client handle: connection flag and whether `disconnect` raises. -/
structure SocketH where
  connected : Bool
  disconnect_fails : Bool
deriving DecidableEq

/-- Embedding of `player.stop()`: stopping an already stopped player is a
benign no-op. -/
def stop_player (p : PlayerH) : Except String PlayerH :=
  if p.stop_fails then Except.error ("stop failed")
  else Except.ok { p with playing := false }

/-- Embedding of `socket_client.disconnect()`. -/
def disconnect_socket (sc : SocketH) : Except String SocketH :=
  if sc.disconnect_fails then Except.error ("disconnect failed")
  else Except.ok { sc with connected := false }

/-- One `try: p.stop() except: pass` step of `closeEvent` (skipping `None`
players). -/
def stop_step (op : Option PlayerH) : Option PlayerH :=
  match op with
  | none => none
  | some p =>
      match stop_player p with
      | Except.ok p' => some p'
      | Except.error _ => some p

/-- The guarded `socket_client.disconnect()` step of `closeEvent`, absorbing
exceptions. -/
def disconnect_step (osc : Option SocketH) : Option SocketH :=
  match osc with
  | none => none
  | some sc =>
      match disconnect_socket sc with
      | Except.ok sc' => some sc'
      | Except.error _ => some sc

/-- The per-window state touched by `CustomLayoutWindow.closeEvent`. -/
structure WindowState where
  socket_client : Option SocketH
  players : List (Option PlayerH)
deriving DecidableEq

/-- Embedding of `CustomLayoutWindow.closeEvent`: disconnect the socket and
stop every player, each step absorbing exceptions, then accept the event
(the returned flag). -/
def close_event (s : WindowState) : WindowState × Bool :=
  (⟨disconnect_step s.socket_client, s.players.map stop_step⟩, true)

theorem rnd_spec (b q r : ℕ) (hb : 0 < b) (hr : r < b) :
    rnd (b * q + r) b =
      if 2 * r < b then q
      else if b < 2 * r then q + 1
      else if q % 2 = 0 then q else q + 1 := by
  have h1 : (b * q + r) / b = q := by
    rw [Nat.mul_add_div hb, Nat.div_eq_of_lt hr, Nat.add_zero]
  have h2 : (b * q + r) % b = r := by
    rw [Nat.mul_add_mod, Nat.mod_eq_of_lt hr]
  simp only [rnd, h1, h2]

theorem rnd_zero (b : ℕ) (hb : 0 < b) : rnd 0 b = 0 := by
  simp [rnd, Nat.zero_div, Nat.zero_mod, hb]

theorem rnd_mul (b T : ℕ) (hb : 0 < b) : rnd (b * T) b = T := by
  have h := rnd_spec b T 0 hb hb
  rw [Nat.add_zero] at h
  rw [h, if_pos]
  omega

theorem rnd_mono (b : ℕ) (hb : 0 < b) {a a' : ℕ} (h : a ≤ a') :
    rnd a b ≤ rnd a' b := by
  obtain ⟨q, r, hr, rfl⟩ : ∃ q r, r < b ∧ b * q + r = a :=
    ⟨a / b, a % b, Nat.mod_lt _ hb, Nat.div_add_mod a b⟩
  obtain ⟨q', r', hr', rfl⟩ : ∃ q' r', r' < b ∧ b * q' + r' = a' :=
    ⟨a' / b, a' % b, Nat.mod_lt _ hb, Nat.div_add_mod a' b⟩
  rw [rnd_spec b q r hb hr, rnd_spec b q' r' hb hr']
  have hq : q ≤ q' := by
    have hd : (b * q + r) / b ≤ (b * q' + r') / b := Nat.div_le_div_right h
    rwa [Nat.mul_add_div hb, Nat.mul_add_div hb, Nat.div_eq_of_lt hr,
      Nat.div_eq_of_lt hr', Nat.add_zero, Nat.add_zero] at hd
  rcases Nat.eq_or_lt_of_le hq with heq | hlt
  · subst heq
    have hrr : r ≤ r' := Nat.le_of_add_le_add_left h
    split_ifs <;> omega
  · split_ifs <;> omega

theorem rnd_le (w s i : ℕ) (hs : 0 < s) (hi : i ≤ s) : rnd (i * w) s ≤ w := by
  calc rnd (i * w) s ≤ rnd (s * w) s := rnd_mono s hs (Nat.mul_le_mul_right w hi)
  _ = w := rnd_mul s w hs

theorem compute_boundaries_chain (T s : ℕ) (hs : 0 < s) :
    (compute_boundaries T s).Chain' (· ≤ ·) := by
  unfold compute_boundaries
  rw [List.chain'_map]
  refine (List.chain'_range_succ _ s).mpr (fun m _ => ?_)
  exact rnd_mono s hs (Nat.mul_le_mul_right T (Nat.le_succ m))

theorem compute_boundaries_length (T s : ℕ) :
    (compute_boundaries T s).length = s + 1 := by
  simp [compute_boundaries]

theorem compute_boundaries_head (T s : ℕ) (hs : 0 < s) :
    (compute_boundaries T s).head? = some 0 := by
  unfold compute_boundaries
  rw [List.range_succ_eq_map, List.map_cons]
  simp [rnd_zero s hs]

theorem compute_boundaries_getLast (T s : ℕ) (hs : 0 < s) :
    (compute_boundaries T s).getLast? = some T := by
  unfold compute_boundaries
  rw [List.range_succ, List.map_append, List.map_singleton, List.getLast?_concat]
  rw [rnd_mul s T hs]

theorem sumDiffs_add_headD (l : List ℕ) (h : l.Chain' (· ≤ ·)) :
    sumDiffs l + l.headD 0 = l.getLastD 0 := by
  induction l with
  | nil => simp [sumDiffs]
  | cons x l ih =>
      cases l with
      | nil => simp [sumDiffs]
      | cons y rest =>
          rw [List.chain'_cons] at h
          have h2 := ih h.2
          have hle : x ≤ y := h.1
          have hsd : sumDiffs (x :: y :: rest) = (y - x) + sumDiffs (y :: rest) := rfl
          have hL1 : (x :: y :: rest).getLastD 0 = rest.getLastD y := by
            cases rest <;> rfl
          have hL2 : (y :: rest).getLastD 0 = rest.getLastD y := by
            cases rest <;> rfl
          rw [hL2] at h2
          rw [hsd, hL1]
          simp only [List.headD_cons] at h2 ⊢
          omega

/-- C1: for every `totalPixels ≥ 0` and every `segments ≥ 1`,
`compute_boundaries` returns `segments + 1` integer boundaries, the list is
non-decreasing, its first element is `0`, its last element is `totalPixels`,
and the sum of consecutive differences is exactly `totalPixels`. -/
theorem boundaries_partition_correct (T s : ℕ) (hs : 1 ≤ s) :
    (compute_boundaries T s).length = s + 1 ∧
    (compute_boundaries T s).Chain' (· ≤ ·) ∧
    (compute_boundaries T s).head? = some 0 ∧
    (compute_boundaries T s).getLast? = some T ∧
    sumDiffs (compute_boundaries T s) = T := by
  have hch := compute_boundaries_chain T s hs
  refine ⟨compute_boundaries_length T s, hch, compute_boundaries_head T s hs,
    compute_boundaries_getLast T s hs, ?_⟩
  have hsum := sumDiffs_add_headD _ hch
  have hh : (compute_boundaries T s).headD 0 = 0 := by
    rw [List.headD_eq_head?_getD, compute_boundaries_head T s hs]
    rfl
  have hl : (compute_boundaries T s).getLastD 0 = T := by
    rw [List.getLastD_eq_getLast?, compute_boundaries_getLast T s hs]
    rfl
  rw [hh, hl] at hsum
  omega

theorem boundaries_partition_correct_witness :
    (compute_boundaries 7 3).length = 3 + 1 ∧
    (compute_boundaries 7 3).Chain' (· ≤ ·) ∧
    (compute_boundaries 7 3).head? = some 0 ∧
    (compute_boundaries 7 3).getLast? = some 7 ∧
    sumDiffs (compute_boundaries 7 3) = 7 :=
  boundaries_partition_correct 7 3 (by decide)

theorem Rect.disjoint_mk (x1 y1 w1 h1 x2 y2 w2 h2 : ℕ) :
    Rect.disjoint ⟨x1, y1, w1, h1⟩ ⟨x2, y2, w2, h2⟩ ↔
      (x1 + w1 ≤ x2 ∨ x2 + w2 ≤ x1 ∨ y1 + h1 ≤ y2 ∨ y2 + h2 ≤ y1) :=
  Iff.rfl

theorem rnd_one (w : ℕ) : rnd w 1 = w := by
  have h := rnd_mul 1 w one_pos
  rwa [Nat.one_mul] at h

theorem cb_one (w : ℕ) : compute_boundaries w 1 = [0, w] := by
  show (List.range 2).map _ = _
  rw [show List.range 2 = [0, 1] from rfl]
  simp [rnd_zero 1 one_pos, rnd_one]

theorem cb_two (w : ℕ) : compute_boundaries w 2 = [0, rnd w 2, w] := by
  show (List.range 3).map _ = _
  rw [show List.range 3 = [0, 1, 2] from rfl]
  simp [rnd_zero 2 two_pos, rnd_mul 2 w two_pos]

theorem cb_three (w : ℕ) :
    compute_boundaries w 3 = [0, rnd w 3, rnd (2 * w) 3, w] := by
  show (List.range 4).map _ = _
  rw [show List.range 4 = [0, 1, 2, 3] from rfl]
  simp [rnd_zero 3 three_pos, rnd_mul 3 w three_pos]

theorem layout_rects_one (w h : ℕ) : layout_rects w h 1 = [⟨0, 0, w, h⟩] := by
  unfold layout_rects
  rw [show num_frames 1 = 1 from rfl, show List.range 1 = [0] from rfl]
  rw [show max_x_seg 1 = 1 from rfl, show max_y_seg 1 = 1 from rfl, cb_one, cb_one]
  rfl

theorem layout_rects_grid4 (w h n : ℕ)
    (htm : get_tile_map n = [(0, 0, 1, 1), (1, 0, 2, 1), (0, 1, 1, 2), (1, 1, 2, 2)])
    (hnf : num_frames n = 4) (hx : max_x_seg n = 2) (hy : max_y_seg n = 2) :
    layout_rects w h n =
      [⟨0, 0, rnd w 2, rnd h 2⟩,
       ⟨rnd w 2, 0, w - rnd w 2, rnd h 2⟩,
       ⟨0, rnd h 2, rnd w 2, h - rnd h 2⟩,
       ⟨rnd w 2, rnd h 2, w - rnd w 2, h - rnd h 2⟩] := by
  unfold layout_rects
  rw [htm, hnf, hx, hy, cb_two, cb_two, show List.range 4 = [0, 1, 2, 3] from rfl]
  rfl

theorem layout_rects_grid9_six (w h : ℕ) :
    layout_rects w h 6 =
      [⟨0, 0, rnd (2 * w) 3, rnd (2 * h) 3⟩,
       ⟨rnd (2 * w) 3, 0, w - rnd (2 * w) 3, rnd h 3⟩,
       ⟨rnd (2 * w) 3, rnd h 3, w - rnd (2 * w) 3, rnd (2 * h) 3 - rnd h 3⟩,
       ⟨rnd (2 * w) 3, rnd (2 * h) 3, w - rnd (2 * w) 3, h - rnd (2 * h) 3⟩,
       ⟨0, rnd (2 * h) 3, rnd w 3, h - rnd (2 * h) 3⟩,
       ⟨rnd w 3, rnd (2 * h) 3, rnd (2 * w) 3 - rnd w 3, h - rnd (2 * h) 3⟩] := by
  unfold layout_rects
  rw [show num_frames 6 = 6 from rfl, show List.range 6 = [0, 1, 2, 3, 4, 5] from rfl]
  rw [show max_x_seg 6 = 3 from rfl, show max_y_seg 6 = 3 from rfl, cb_three, cb_three]
  rfl

theorem layout_rects_grid9_five (w h : ℕ) :
    layout_rects w h 5 =
      [⟨0, 0, rnd (2 * w) 3, rnd (2 * h) 3⟩,
       ⟨rnd (2 * w) 3, 0, w - rnd (2 * w) 3, rnd h 3⟩,
       ⟨rnd (2 * w) 3, rnd h 3, w - rnd (2 * w) 3, rnd (2 * h) 3 - rnd h 3⟩,
       ⟨rnd (2 * w) 3, rnd (2 * h) 3, w - rnd (2 * w) 3, h - rnd (2 * h) 3⟩,
       ⟨0, rnd (2 * h) 3, rnd w 3, h - rnd (2 * h) 3⟩] := by
  unfold layout_rects
  rw [show num_frames 5 = 5 from rfl, show List.range 5 = [0, 1, 2, 3, 4] from rfl]
  rw [show max_x_seg 5 = 3 from rfl, show max_y_seg 5 = 3 from rfl, cb_three, cb_three]
  rfl

/-- C2 counterexample: for a 5-stream group no padding tile is created for the
sixth grid cell, so the five assigned rectangles on a 1920×1080 surface sum to
1843200 pixels, not 1920 × 1080 = 2073600: the claimed statement fails there. -/
theorem tiling_covers_counterexample :
    ¬ (List.Pairwise Rect.disjoint (layout_rects 1920 1080 5) ∧
       ((layout_rects 1920 1080 5).map Rect.area).sum = 1920 * 1080) := by
  intro hab
  have hB := hab.2
  have hS : ((layout_rects 1920 1080 5).map Rect.area).sum = 1843200 := by decide
  omega

/-- C2 (amended): for every surface size and every group of 1–6 streams the
assigned frame rectangles are pairwise non-overlapping; for 1, 2, 3, 4 or 6
streams their areas sum to exactly `sw * sh`, while for 5 streams the grid
cell at column 1, row 2 is left unassigned, so the areas sum to `sw * sh`
minus that cell's area. -/
theorem tiling_covers_amended (w h n : ℕ) (h1 : 1 ≤ n) (h6 : n ≤ 6) :
    List.Pairwise Rect.disjoint (layout_rects w h n) ∧
    (n ≠ 5 → ((layout_rects w h n).map Rect.area).sum = w * h) ∧
    (n = 5 → ((layout_rects w h n).map Rect.area).sum +
        (rnd (2 * w) 3 - rnd w 3) * (h - rnd (2 * h) 3) = w * h) := by
  have hb2w : rnd w 2 ≤ w := by
    have := rnd_le w 2 1 two_pos one_le_two
    rwa [Nat.one_mul] at this
  have hb2h : rnd h 2 ≤ h := by
    have := rnd_le h 2 1 two_pos one_le_two
    rwa [Nat.one_mul] at this
  have h3w1 : rnd w 3 ≤ rnd (2 * w) 3 := by
    have hmu : (1 : ℕ) * w ≤ 2 * w := Nat.mul_le_mul_right w one_le_two
    have := rnd_mono 3 three_pos hmu
    rwa [Nat.one_mul] at this
  have h3w2 : rnd (2 * w) 3 ≤ w := rnd_le w 3 2 three_pos (by omega)
  have h3h1 : rnd h 3 ≤ rnd (2 * h) 3 := by
    have hmu : (1 : ℕ) * h ≤ 2 * h := Nat.mul_le_mul_right h one_le_two
    have := rnd_mono 3 three_pos hmu
    rwa [Nat.one_mul] at this
  have h3h2 : rnd (2 * h) 3 ≤ h := rnd_le h 3 2 three_pos (by omega)
  interval_cases n
  · rw [layout_rects_one]
    exact ⟨by simp, fun _ => by simp [Rect.area], fun hc => absurd hc (by decide)⟩
  · rw [layout_rects_grid4 w h 2 (by decide) (by decide) (by decide) (by decide)]
    refine ⟨?_, fun _ => ?_, fun hc => absurd hc (by decide)⟩
    · simp only [List.pairwise_cons, List.mem_cons, List.not_mem_nil, or_false]
      refine ⟨?_, ?_, ?_, fun r hF => hF.elim, List.Pairwise.nil⟩
      · rintro r (rfl | rfl | rfl) <;> (simp only [Rect.disjoint_mk]; omega)
      · rintro r (rfl | rfl) <;> (simp only [Rect.disjoint_mk]; omega)
      · rintro r rfl
        simp only [Rect.disjoint_mk]
        omega
    · simp only [List.map_cons, List.map_nil, List.sum_cons, List.sum_nil,
        Rect.area, Nat.add_zero]
      set b := rnd w 2 with hb
      set c := rnd h 2 with hc
      obtain ⟨u, hu⟩ : ∃ u, b + u = w := ⟨w - b, by omega⟩
      obtain ⟨v, hv⟩ : ∃ v, c + v = h := ⟨h - c, by omega⟩
      rw [show w - b = u from by omega, show h - c = v from by omega, ← hu, ← hv]
      ring
  · rw [layout_rects_grid4 w h 3 (by decide) (by decide) (by decide) (by decide)]
    refine ⟨?_, fun _ => ?_, fun hc => absurd hc (by decide)⟩
    · simp only [List.pairwise_cons, List.mem_cons, List.not_mem_nil, or_false]
      refine ⟨?_, ?_, ?_, fun r hF => hF.elim, List.Pairwise.nil⟩
      · rintro r (rfl | rfl | rfl) <;> (simp only [Rect.disjoint_mk]; omega)
      · rintro r (rfl | rfl) <;> (simp only [Rect.disjoint_mk]; omega)
      · rintro r rfl
        simp only [Rect.disjoint_mk]
        omega
    · simp only [List.map_cons, List.map_nil, List.sum_cons, List.sum_nil,
        Rect.area, Nat.add_zero]
      set b := rnd w 2 with hb
      set c := rnd h 2 with hc
      obtain ⟨u, hu⟩ : ∃ u, b + u = w := ⟨w - b, by omega⟩
      obtain ⟨v, hv⟩ : ∃ v, c + v = h := ⟨h - c, by omega⟩
      rw [show w - b = u from by omega, show h - c = v from by omega, ← hu, ← hv]
      ring
  · rw [layout_rects_grid4 w h 4 (by decide) (by decide) (by decide) (by decide)]
    refine ⟨?_, fun _ => ?_, fun hc => absurd hc (by decide)⟩
    · simp only [List.pairwise_cons, List.mem_cons, List.not_mem_nil, or_false]
      refine ⟨?_, ?_, ?_, fun r hF => hF.elim, List.Pairwise.nil⟩
      · rintro r (rfl | rfl | rfl) <;> (simp only [Rect.disjoint_mk]; omega)
      · rintro r (rfl | rfl) <;> (simp only [Rect.disjoint_mk]; omega)
      · rintro r rfl
        simp only [Rect.disjoint_mk]
        omega
    · simp only [List.map_cons, List.map_nil, List.sum_cons, List.sum_nil,
        Rect.area, Nat.add_zero]
      set b := rnd w 2 with hb
      set c := rnd h 2 with hc
      obtain ⟨u, hu⟩ : ∃ u, b + u = w := ⟨w - b, by omega⟩
      obtain ⟨v, hv⟩ : ∃ v, c + v = h := ⟨h - c, by omega⟩
      rw [show w - b = u from by omega, show h - c = v from by omega, ← hu, ← hv]
      ring
  · rw [layout_rects_grid9_five w h]
    refine ⟨?_, fun hc => absurd rfl hc, fun _ => ?_⟩
    · simp only [List.pairwise_cons, List.mem_cons, List.not_mem_nil, or_false]
      refine ⟨?_, ?_, ?_, ?_, fun r hF => hF.elim, List.Pairwise.nil⟩
      · rintro r (rfl | rfl | rfl | rfl) <;> (simp only [Rect.disjoint_mk]; omega)
      · rintro r (rfl | rfl | rfl) <;> (simp only [Rect.disjoint_mk]; omega)
      · rintro r (rfl | rfl) <;> (simp only [Rect.disjoint_mk]; omega)
      · rintro r rfl
        simp only [Rect.disjoint_mk]
        omega
    · simp only [List.map_cons, List.map_nil, List.sum_cons, List.sum_nil,
        Rect.area, Nat.add_zero]
      set b1 := rnd w 3 with hB1
      set b2 := rnd (2 * w) 3 with hB2
      set c1 := rnd h 3 with hC1
      set c2 := rnd (2 * h) 3 with hC2
      obtain ⟨u1, hu1⟩ : ∃ u, b1 + u = b2 := ⟨b2 - b1, by omega⟩
      obtain ⟨u2, hu2⟩ : ∃ u, b2 + u = w := ⟨w - b2, by omega⟩
      obtain ⟨v1, hv1⟩ : ∃ v, c1 + v = c2 := ⟨c2 - c1, by omega⟩
      obtain ⟨v2, hv2⟩ : ∃ v, c2 + v = h := ⟨h - c2, by omega⟩
      rw [show w - b2 = u2 from by omega, show b2 - b1 = u1 from by omega,
        show h - c2 = v2 from by omega, show c2 - c1 = v1 from by omega,
        ← hu2, ← hv2, ← hu1, ← hv1]
      ring
  · rw [layout_rects_grid9_six w h]
    refine ⟨?_, fun _ => ?_, fun hc => absurd hc (by decide)⟩
    · simp only [List.pairwise_cons, List.mem_cons, List.not_mem_nil, or_false]
      refine ⟨?_, ?_, ?_, ?_, ?_, fun r hF => hF.elim, List.Pairwise.nil⟩
      · rintro r (rfl | rfl | rfl | rfl | rfl) <;> (simp only [Rect.disjoint_mk]; omega)
      · rintro r (rfl | rfl | rfl | rfl) <;> (simp only [Rect.disjoint_mk]; omega)
      · rintro r (rfl | rfl | rfl) <;> (simp only [Rect.disjoint_mk]; omega)
      · rintro r (rfl | rfl) <;> (simp only [Rect.disjoint_mk]; omega)
      · rintro r rfl
        simp only [Rect.disjoint_mk]
        omega
    · simp only [List.map_cons, List.map_nil, List.sum_cons, List.sum_nil,
        Rect.area, Nat.add_zero]
      set b1 := rnd w 3 with hB1
      set b2 := rnd (2 * w) 3 with hB2
      set c1 := rnd h 3 with hC1
      set c2 := rnd (2 * h) 3 with hC2
      obtain ⟨u1, hu1⟩ : ∃ u, b1 + u = b2 := ⟨b2 - b1, by omega⟩
      obtain ⟨u2, hu2⟩ : ∃ u, b2 + u = w := ⟨w - b2, by omega⟩
      obtain ⟨v1, hv1⟩ : ∃ v, c1 + v = c2 := ⟨c2 - c1, by omega⟩
      obtain ⟨v2, hv2⟩ : ∃ v, c2 + v = h := ⟨h - c2, by omega⟩
      rw [show w - b2 = u2 from by omega, show b2 - b1 = u1 from by omega,
        show h - c2 = v2 from by omega, show c2 - c1 = v1 from by omega,
        ← hu2, ← hv2, ← hu1, ← hv1]
      ring

theorem tiling_covers_amended_witness :
    List.Pairwise Rect.disjoint (layout_rects 800 600 6) ∧
    ((layout_rects 800 600 6).map Rect.area).sum = 800 * 600 :=
  ⟨(tiling_covers_amended 800 600 6 (by decide) (by decide)).1,
   (tiling_covers_amended 800 600 6 (by decide) (by decide)).2.1 (by decide)⟩

/-- C4: on a 1920×1080 surface with the 6-stream topology, slot 0 gets the
rectangle (0, 0, 1280, 720), slot 1 gets (1280, 0, 640, 360), and the six
rectangle areas sum to 1920 × 1080. -/
theorem six_stream_rectangles :
    (layout_rects 1920 1080 6).getD 0 ⟨0, 0, 0, 0⟩ = ⟨0, 0, 1280, 720⟩ ∧
    (layout_rects 1920 1080 6).getD 1 ⟨0, 0, 0, 0⟩ = ⟨1280, 0, 640, 360⟩ ∧
    ((layout_rects 1920 1080 6).map Rect.area).sum = 1920 * 1080 := by
  decide

/-- C3: two locations resolving to the same area contribute the sum of their
most recent snapshots, and a later event for the first location overwrites
(does not add to) that location's stored snapshot. -/
theorem area_totals_last_write_wins (L1 L2 X t1 t2 t3 : String)
    (hA1 : area_of L1 = X) (hA2 : area_of L2 = X) (hne : L1 ≠ L2) :
    get_area_counts (update_counts (update_counts ⟨[], none⟩ L1 (some ⟨3, 1, 0⟩) [] t1)
        L2 (some ⟨0, 2, 1⟩) [] t2) X = ⟨3, 3, 1, []⟩ ∧
    get_area_counts (update_counts (update_counts (update_counts ⟨[], none⟩ L1
        (some ⟨3, 1, 0⟩) [] t1) L2 (some ⟨0, 2, 1⟩) [] t2) L1 (some ⟨5, 0, 0⟩) [] t3) X
      = ⟨5, 2, 1, []⟩ := by
  have hne' : ¬ (L1 = L2) := hne
  constructor <;>
    simp [update_counts, setEntry, get_area_counts, aggStep, hne', hA1, hA2]

theorem area_totals_last_write_wins_witness :
    get_area_counts (update_counts (update_counts ⟨[], none⟩ ("AAAABBBB1")
        (some ⟨3, 1, 0⟩) [] ("t1")) ("AAAABBBB2") (some ⟨0, 2, 1⟩) [] ("t2"))
        ("UNKNOWN_AREA (AAAABBBB...)") = ⟨3, 3, 1, []⟩ ∧
    get_area_counts (update_counts (update_counts (update_counts ⟨[], none⟩ ("AAAABBBB1")
        (some ⟨3, 1, 0⟩) [] ("t1")) ("AAAABBBB2") (some ⟨0, 2, 1⟩) [] ("t2")) ("AAAABBBB1")
        (some ⟨5, 0, 0⟩) [] ("t3")) ("UNKNOWN_AREA (AAAABBBB...)") = ⟨5, 2, 1, []⟩ :=
  area_totals_last_write_wins ("AAAABBBB1") ("AAAABBBB2") ("UNKNOWN_AREA (AAAABBBB...)")
    ("t1") ("t2") ("t3") (by decide) (by decide) (by decide)

/-- C5: an event whose department id is absent from the directory is stored
verbatim and its counts are retrievable from `get_area_counts` under the
synthesized placeholder area built from the first 8 characters of the id;
the event is not dropped. -/
theorem unmapped_location_not_dropped (key t : String) (c : DataCount)
    (persons : List Person) (habs : get_department_info key = none) :
    (update_counts ⟨[], none⟩ key (some c) persons t).dept_counts
      = [(key, ⟨c.prisoner, c.officer, c.relative, persons⟩)] ∧
    get_area_counts (update_counts ⟨[], none⟩ key (some c) persons t)
        ("UNKNOWN_AREA (" ++ key.take 8 ++ "...)")
      = ⟨c.prisoner, c.officer, c.relative, persons.filter personFilter⟩ := by
  have hA : area_of key = "UNKNOWN_AREA (" ++ key.take 8 ++ "...)" := by
    simp [area_of, habs]
  refine ⟨by simp [update_counts, setEntry], ?_⟩
  simp [update_counts, setEntry, get_area_counts, aggStep, hA]

theorem unmapped_location_not_dropped_witness :
    (update_counts ⟨[], none⟩ ("ZZZ") (some ⟨1, 2, 3⟩) [] ("t")).dept_counts
      = [(("ZZZ" : String), ⟨1, 2, 3, []⟩)] ∧
    get_area_counts (update_counts ⟨[], none⟩ ("ZZZ") (some ⟨1, 2, 3⟩) [] ("t"))
        ("UNKNOWN_AREA (" ++ ("ZZZ" : String).take 8 ++ "...)")
      = ⟨1, 2, 3, []⟩ :=
  unmapped_location_not_dropped ("ZZZ") ("t") ⟨1, 2, 3⟩ [] (by decide)

theorem personFilter_decide (p : Person) :
    personFilter p
      = decide (p.subject_name ≠ "" ∧ p.face_url ≠ "" ∧ 0 < p.score) := by
  by_cases h1 : p.subject_name = "" <;> by_cases h2 : p.face_url = "" <;>
    by_cases h3 : (0 : ℚ) < p.score <;> simp [personFilter, h1, h2, h3]

theorem agg_list_person (l : List (String × DeptCounts)) (acc : String → DeptCounts)
    (area : String) :
    ((l.foldl aggStep acc) area).list_person =
      (acc area).list_person ++
      ((l.filter (fun e => area_of e.1 == area)).map
        (fun e => e.2.list_person.filter personFilter)).flatten := by
  induction l generalizing acc with
  | nil => simp
  | cons e rest ih =>
      rw [List.foldl_cons, ih]
      by_cases hc : area_of e.1 = area
      · simp [aggStep, hc, List.filter_cons, List.append_assoc]
      · have hc' : ¬ (area = area_of e.1) := fun hx => hc hx.symm
        simp [aggStep, hc, hc', List.filter_cons]

/-- C7 counterexample: `get_area_counts` concatenates every qualifying person
from every stored snapshot, so no fixed limit bounds the returned
`list_person`: for any proposed limit `N`, a single snapshot with `N + 1`
qualifying persons already exceeds it. -/
theorem recognitions_bounded_counterexample :
    ¬ ∃ N : ℕ, ∀ (s : TrackerState) (area : String),
        ((get_area_counts s) area).list_person.length ≤ N := by
  rintro ⟨N, hN⟩
  have h := hN ⟨[(("Z" : String), ⟨0, 0, 0, List.replicate (N + 1) ⟨"a", "b", 1⟩⟩)], none⟩
      (area_of ("Z"))
  have hf : (List.replicate (N + 1) (⟨"a", "b", 1⟩ : Person)).filter personFilter
      = List.replicate (N + 1) ⟨"a", "b", 1⟩ := by
    refine List.filter_eq_self.mpr (fun p hp => ?_)
    rw [List.eq_of_mem_replicate hp]
    decide
  have hl := agg_list_person
      [(("Z" : String), ⟨0, 0, 0, List.replicate (N + 1) (⟨"a", "b", 1⟩ : Person)⟩)]
      (fun _ => ⟨0, 0, 0, []⟩) (area_of ("Z"))
  have hg : get_area_counts ⟨[(("Z" : String), ⟨0, 0, 0,
      List.replicate (N + 1) (⟨"a", "b", 1⟩ : Person)⟩)], none⟩
      = List.foldl aggStep (fun _ => ⟨0, 0, 0, []⟩)
          [(("Z" : String), ⟨0, 0, 0, List.replicate (N + 1) (⟨"a", "b", 1⟩ : Person)⟩)] :=
    rfl
  rw [hg, hl] at h
  simp [hf] at h

/-- C7 (amended): the per-area person list returned by `get_area_counts` is
the unbounded concatenation of all qualifying persons; the fixed bound of 10
is applied by the display layer, which renders only `list_person[:10]`. -/
theorem recognitions_bounded_amended (s : TrackerState) (area : String) :
    (displayed_persons ((get_area_counts s) area)).length ≤ 10 :=
  List.length_take_le 10 _

/-- C8: a stored person entry appears in an area's aggregated list iff its
`subject_name` is non-empty, its `face_url` is non-empty and its score is
strictly positive; all qualifying entries of every snapshot resolving to the
area are concatenated in storage order. -/
theorem recognitions_filter_characterization (s : TrackerState) (area : String) :
    ((get_area_counts s) area).list_person =
      ((s.dept_counts.filter (fun e => area_of e.1 == area)).map
        (fun e => e.2.list_person.filter
          (fun p => decide (p.subject_name ≠ "" ∧ p.face_url ≠ "" ∧ 0 < p.score)))).flatten := by
  have hpf : personFilter = fun p : Person =>
      decide (p.subject_name ≠ "" ∧ p.face_url ≠ "" ∧ 0 < p.score) :=
    funext personFilter_decide
  have h := agg_list_person s.dept_counts (fun _ => ⟨0, 0, 0, []⟩) area
  rw [show (get_area_counts s) area
      = (s.dept_counts.foldl aggStep (fun _ => ⟨0, 0, 0, []⟩)) area from rfl, h,
    List.nil_append, hpf]

/-- C10: reading the aggregated totals leaves the tracker state (both
`dept_counts` and `last_update_time`) unchanged, and an immediately repeated
read returns the same result. -/
theorem read_does_not_mutate (s : TrackerState) :
    (get_area_counts_method s).1 = s ∧
    (get_area_counts_method ((get_area_counts_method s).1)).2
      = (get_area_counts_method s).2 :=
  ⟨rfl, rfl⟩

theorem attempt_times_chain (has_cam : Bool) (url : String) (has_player : Bool) :
    ∀ (last : ℚ) (ts : List ℚ),
      List.Chain (fun a b : ℚ => a + 1 ≤ b) last (attempt_times has_cam url has_player last ts)
  | _, [] => List.Chain.nil
  | last, t :: ts => by
      rw [attempt_times]
      by_cases hnoop : (start_playback has_cam url has_player last t).1 = last
      · rw [if_pos hnoop]
        exact attempt_times_chain has_cam url has_player last ts
      · rw [if_neg hnoop]
        have hh : (start_playback has_cam url has_player last t).1 = t ∧ last + 1 ≤ t := by
          unfold start_playback at hnoop ⊢
          split_ifs at hnoop ⊢ with h1 h2 h3 h4
          · exact absurd rfl hnoop
          · exact absurd rfl hnoop
          · exact absurd rfl hnoop
          · exact ⟨rfl, by linarith [not_lt.mp h3]⟩
          · exact ⟨rfl, by linarith [not_lt.mp h3]⟩
        rw [hh.1]
        exact List.Chain.cons hh.2 (attempt_times_chain has_cam url has_player t ts)

/-- C6: a `_start_playback` call made less than one time unit after the
slot's last recorded play attempt is a silent no-op — the recorded timestamp
is unchanged and no stop or play is issued — and, consequently, consecutive
recorded play attempts for a slot are always at least one time unit apart. -/
theorem reconnect_rate_limited (has_cam : Bool) (url : String) (has_player : Bool)
    (last now : ℚ) (ts : List ℚ) (hlt : now - last < 1) :
    start_playback has_cam url has_player last now = (last, []) ∧
    List.Chain' (fun a b : ℚ => a + 1 ≤ b)
      (attempt_times has_cam url has_player last ts) := by
  constructor
  · unfold start_playback
    split_ifs <;> rfl
  · have hch := attempt_times_chain has_cam url has_player last ts
    cases hL : attempt_times has_cam url has_player last ts with
    | nil => trivial
    | cons a l =>
        rw [hL] at hch
        exact (List.chain_cons.mp hch).2

theorem reconnect_rate_limited_witness :
    start_playback true ("u") true 0 (1 / 2) = (0, []) ∧
    List.Chain' (fun a b : ℚ => a + 1 ≤ b) (attempt_times true ("u") true 0 [1, 3, 10]) :=
  reconnect_rate_limited true ("u") true 0 (1 / 2) [1, 3, 10] (by norm_num)

theorem stop_step_idem (op : Option PlayerH) :
    stop_step (stop_step op) = stop_step op := by
  rcases op with _ | ⟨playing, sf⟩
  · rfl
  · cases sf <;> simp [stop_step, stop_player]

theorem disconnect_step_idem (osc : Option SocketH) :
    disconnect_step (disconnect_step osc) = disconnect_step osc := by
  rcases osc with _ | ⟨cn, df⟩
  · rfl
  · cases df <;> simp [disconnect_step, disconnect_socket]

/-- C9: `closeEvent` always completes normally (it accepts the event), and a
second call after the first is again normal and is a no-op on the window
state: every per-player stop is absorbed and no handle is released twice. -/
theorem shutdown_idempotent (s : WindowState) :
    (close_event s).2 = true ∧
    (close_event (close_event s).1).2 = true ∧
    close_event (close_event s).1 = close_event s := by
  refine ⟨rfl, rfl, ?_⟩
  unfold close_event
  simp only [Prod.mk.injEq, WindowState.mk.injEq]
  refine ⟨⟨disconnect_step_idem _, ?_⟩, trivial⟩
  rw [List.map_map]
  exact List.map_congr_left (fun op _ => stop_step_idem op)

end Viewcam
